import Mathlib

/-!
Shallow embedding of the configuration-cascading and target-resolution core
of the skeema repository (source files dir.go, option.go, diff.go), together
with proofs settling the frozen claims about it.

Go strings are modelled as lists of characters (`GoStr`).  Go byte-level
unicode helpers are modelled on their ASCII behavior: `strings.ToLower`
maps A-Z to a-z (the inputs relevant here are ASCII), and `unicode.IsSpace`
recognizes the ASCII/Latin-1 white space set.
-/

/-- Go strings, modelled as lists of characters. -/
abbrev GoStr := List Char

/-- Model of unicode.IsSpace restricted to the Latin-1 range that Go special
cases: tab, newline, vertical tab, form feed, carriage return, space,
next line, and no-break space. -/
def goIsSpace (c : Char) : Bool :=
  c = ' ' || c = '\t' || c = '\n' || (c = Char.ofNat 11) || (c = Char.ofNat 12) ||
  c = '\r' || (c = Char.ofNat 133) || (c = Char.ofNat 160)

/-- The twenty-six ASCII uppercase letters. -/
def upperChars : List Char :=
  ['A','B','C','D','E','F','G','H','I','J','K','L','M',
   'N','O','P','Q','R','S','T','U','V','W','X','Y','Z']

/-- The twenty-six ASCII lowercase letters. -/
def lowerChars : List Char :=
  ['a','b','c','d','e','f','g','h','i','j','k','l','m',
   'n','o','p','q','r','s','t','u','v','w','x','y','z']

/-- Model of the per-character action of strings.ToLower (ASCII range). -/
def goToLowerChar (c : Char) : Char :=
  match c with
  | 'A' => 'a' | 'B' => 'b' | 'C' => 'c' | 'D' => 'd' | 'E' => 'e'
  | 'F' => 'f' | 'G' => 'g' | 'H' => 'h' | 'I' => 'i' | 'J' => 'j'
  | 'K' => 'k' | 'L' => 'l' | 'M' => 'm' | 'N' => 'n' | 'O' => 'o'
  | 'P' => 'p' | 'Q' => 'q' | 'R' => 'r' | 'S' => 's' | 'T' => 't'
  | 'U' => 'u' | 'V' => 'v' | 'W' => 'w' | 'X' => 'x' | 'Y' => 'y'
  | 'Z' => 'z'
  | c => c

/-- Model of strings.ToLower. -/
def goToLower (s : GoStr) : GoStr := s.map goToLowerChar

/-- Per-character action of strings.Replace(s, "_", "-", -1). -/
def goReplUChar (c : Char) : Char := if c = '_' then '-' else c

/-- Model of strings.Replace(s, "_", "-", -1). -/
def goReplaceUnderscores (s : GoStr) : GoStr := s.map goReplUChar

/-- Left half of strings.TrimFunc with unicode.IsSpace. -/
def goTrimLeft (s : GoStr) : GoStr := s.dropWhile goIsSpace

/-- Right half of strings.TrimFunc with unicode.IsSpace. -/
def goTrimRight (s : GoStr) : GoStr := (s.reverse.dropWhile goIsSpace).reverse

/-- Model of strings.TrimFunc(s, unicode.IsSpace). -/
def goTrim (s : GoStr) : GoStr := goTrimLeft (goTrimRight s)

/-- Model of strings.SplitN(arg, "=", 2): the text before the first '=' and,
when a '=' is present, the text after it. -/
def goSplitFirstEq : GoStr → GoStr × Option GoStr
  | [] => ([], none)
  | c :: rest =>
    if c = '=' then ([], some rest)
    else
      let p := goSplitFirstEq rest
      (c :: p.1, p.2)

/-- The loose- marker stripped by NormalizeOptionToken. -/
def loosePfx : GoStr := "loose-".toList

/-- The skip- negation marker stripped by NormalizeOptionToken. -/
def skipPfx : GoStr := "skip-".toList

/-- The disable- negation marker stripped by NormalizeOptionToken. -/
def disablePfx : GoStr := "disable-".toList

/-- The enable- marker stripped (without negation) by NormalizeOptionToken. -/
def enablePfx : GoStr := "enable-".toList

/-- The canonical falsey value "0". -/
def zeroStr : GoStr := "0".toList

/-- The canonical truthy value "1". -/
def oneStr : GoStr := "1".toList

/-- The values recognized as falsey in the negated-value switch of
NormalizeOptionToken (compared after ToLower). -/
def falseyVals : List GoStr := ["off".toList, "false".toList, "0".toList]

/-- The loose- stripping step of NormalizeOptionToken: the key after the
marker is removed, and the loose flag. -/
def stripLoose (k : GoStr) : GoStr × Bool :=
  if loosePfx.isPrefixOf k then (k.drop 6, true) else (k, false)

/-- The negation-marker stripping step of NormalizeOptionToken, checked in
source order: skip- and disable- set negation, enable- is stripped without
setting it, and only the first matching marker is removed. -/
def stripNegation (k : GoStr) : GoStr × Bool :=
  if skipPfx.isPrefixOf k then (k.drop 5, true)
  else if disablePfx.isPrefixOf k then (k.drop 8, true)
  else if enablePfx.isPrefixOf k then (k.drop 7, false)
  else (k, false)

/-- The value computation of NormalizeOptionToken: a supplied value is
trimmed and, under negation, collapsed to "0" unless it is itself falsey
(a double negative, giving "1"); no supplied value gives "0" under
negation and the empty value otherwise. -/
def normValue (negated : Bool) : Option GoStr → GoStr
  | some rest =>
    let v := goTrim rest
    if negated then (if goToLower v ∈ falseyVals then oneStr else zeroStr)
    else v
  | none => if negated then zeroStr else []

/-- Embedding of NormalizeOptionToken from option.go: split on the first '=',
trim both halves, return early on an empty key, lower-case the key and map
underscores to dashes, strip a loose- marker and then at most one of the
skip-, disable-, enable- markers (the first two set negation), and finally
compute the value with the double-negative rule for negated falsey values. -/
def NormalizeOptionToken (arg : GoStr) : GoStr × GoStr × Bool :=
  let tokens := goSplitFirstEq arg
  let key0 := goTrim tokens.1
  if key0 = [] then ([], [], false)
  else
    let key1 := goReplaceUnderscores (goToLower key0)
    let ls := stripLoose key1
    let ns := stripNegation ls.1
    (ns.1, normValue ns.2 tokens.2, ls.2)

/-- Embedding of NormalizeOptionName from option.go. -/
def NormalizeOptionName (name : GoStr) : GoStr :=
  (NormalizeOptionToken name).1

/-- Shape invariant of every key produced by NormalizeOptionToken: all
characters are fixed by lowering, no underscore, no equals sign, and no
trailing white space (leading white space can survive marker stripping). -/
def canonKey (k : GoStr) : Prop :=
  (∀ c ∈ k, goToLowerChar c = c) ∧ '_' ∉ k ∧ '=' ∉ k ∧
  (∀ c, k.getLast? = some c → goIsSpace c = false)

/-- The two option descriptor types of option.go. -/
inductive OptionType where
  | string
  | bool
deriving DecidableEq

/-- Embedding of the Option descriptor struct of option.go.  The AfterParse
callback field is omitted: it holds a function value that no claim touches
and that would make descriptor equality undecidable.  A zero Shorthand
(Char.ofNat 0) plays the role of the Go zero rune. -/
structure GoOption where
  Name : GoStr
  Shorthand : Char
  OptType : OptionType -- the Type field of the source; Type is reserved in Lean
  Default : GoStr
  Description : GoStr
  RequireValue : Bool
  HiddenOnCLI : Bool
deriving DecidableEq

/-- Embedding of the StringOption constructor of option.go. -/
def StringOption (long : GoStr) (short : Char) (defaultValue : GoStr)
    (description : GoStr) : GoOption :=
  { Name := long, Shorthand := short, OptType := OptionType.string,
    Default := defaultValue, Description := description,
    RequireValue := true, HiddenOnCLI := false }

/-- Embedding of the BoolOption constructor of option.go. -/
def BoolOption (long : GoStr) (short : Char) (defaultValue : Bool)
    (description : GoStr) : GoOption :=
  { Name := long, Shorthand := short, OptType := OptionType.bool,
    Default := if defaultValue then oneStr else zeroStr,
    Description := description,
    RequireValue := false, HiddenOnCLI := false }

/-- Embedding of the Hidden builder method of option.go. -/
def GoOption.Hidden (opt : GoOption) : GoOption :=
  { opt with HiddenOnCLI := true }

/-- Embedding of the ValueRequired builder method of option.go. -/
def GoOption.ValueRequired (opt : GoOption) : GoOption :=
  { opt with RequireValue := true }

/-- Embedding of the ValueOptional builder method of option.go. -/
def GoOption.ValueOptional (opt : GoOption) : GoOption :=
  { opt with RequireValue := false }

/-- Embedding of HasNonzeroDefault from option.go. -/
def HasNonzeroDefault (opt : GoOption) : Bool :=
  match opt.OptType with
  | OptionType.string => opt.Default ≠ []
  | OptionType.bool =>
    if goToLower opt.Default ∈ [([] : GoStr), zeroStr, "off".toList, "false".toList]
    then false else true

/-- Embedding of PrintableDefault from option.go. -/
def PrintableDefault (opt : GoOption) : GoStr :=
  match opt.OptType with
  | OptionType.bool =>
    if goToLower opt.Default ∈ [([] : GoStr), zeroStr, "off".toList, "false".toList]
    then "false".toList else "true".toList
  | OptionType.string => '"' :: (opt.Default ++ ['"'])

/-- The rendering of an option descriptor type in usage text. -/
def optTypeStr (t : OptionType) : GoStr :=
  match t with
  | OptionType.bool => "bool".toList
  | OptionType.string => "string".toList

/-- The value-annotation component of Usage from option.go: a required value
renders as a space plus the type name; otherwise non-bool options and bool
options with a nonzero default render the type bracketed; otherwise nothing. -/
def usageValue (opt : GoOption) : GoStr :=
  if opt.RequireValue then ' ' :: optTypeStr opt.OptType
  else if opt.OptType ≠ OptionType.bool || HasNonzeroDefault opt then
    '[' :: '=' :: (optTypeStr opt.OptType ++ [']'])
  else []

/-- Left-justified padding to a given width, modelling the Sprintf width
specifier with a negated width argument as used by Usage. -/
def goPadRight (w : Nat) (s : GoStr) : GoStr :=
  s ++ List.replicate (w - s.length) ' '

/-- Embedding of Usage from option.go: hidden descriptors render empty;
otherwise the line holds the shorthand, the long name with its value
annotation padded to the column width, the description, and the default. -/
def Usage (opt : GoOption) (maxNameLength : Nat) : GoStr :=
  if opt.HiddenOnCLI then []
  else
    let shorthand :=
      if 0 < opt.Shorthand.toNat then ['-', opt.Shorthand, ','] else "   ".toList
    let long := opt.Name ++ usageValue opt
    let defPart :=
      if HasNonzeroDefault opt then
        " (default ".toList ++ PrintableDefault opt ++ [')']
      else []
    "  ".toList ++ shorthand ++ " --".toList ++ goPadRight (maxNameLength + 9) long ++
      "  ".toList ++ opt.Description ++ defPart ++ ['\n']

/-- Abstract view of the layered mycli.Config collaborator, as consumed by
dir.go: whether a key was explicitly set anywhere, the effective string
value of a key, and the integer-or-default reading of a key. -/
structure Config where
  changed : String → Bool
  get : String → GoStr
  getIntOrDefault : String → Int

/-- Decimal rendering of a Go int under the %d verb. -/
def goIntToStr (i : Int) : GoStr := (toString i).toList

/-- Embedding of the Dir struct of dir.go (the section field is unused by
the claims being settled). -/
structure Dir where
  Path : GoStr
  Config : Config

/-- Embedding of HasHost from dir.go. -/
def Dir.HasHost (dir : Dir) : Bool := dir.Config.changed "host"

/-- Embedding of InstanceKey from dir.go, stated on the configuration: empty
when host was never explicitly set; the localhost/socket form when host is
localhost and a socket is set or no port is set; the host:port form
otherwise. -/
def InstanceKey (cfg : Config) : GoStr :=
  if !cfg.changed "host" then []
  else
    let host := cfg.get "host"
    if host = "localhost".toList ∧ (cfg.changed "socket" = true ∨ cfg.changed "port" = false)
    then host ++ [':'] ++ cfg.get "socket"
    else host ++ [':'] ++ goIntToStr (cfg.getIntOrDefault "port")

/-- The credentials part of the DSN built by FirstInstance: the user alone
when no password was explicitly set, else user:password. -/
def userAndPass (cfg : Config) : GoStr :=
  if !cfg.changed "password" then cfg.get "user"
  else cfg.get "user" ++ [':'] ++ cfg.get "password"

/-- The fixed connection parameters appended to every DSN by FirstInstance. -/
def connParams : GoStr := "interpolateParams=true&foreign_key_checks=0".toList

/-- The DSN built by FirstInstance in dir.go: unix-socket addressing for
localhost with a socket set or no port set, tcp addressing otherwise. -/
def firstInstanceDSN (cfg : Config) : GoStr :=
  if cfg.get "host" = "localhost".toList ∧ (cfg.changed "socket" = true ∨ cfg.changed "port" = false)
  then userAndPass cfg ++ "@unix(".toList ++ cfg.get "socket" ++ ")/?".toList ++ connParams
  else userAndPass cfg ++ "@tcp(".toList ++ cfg.get "host" ++ [':'] ++
       goIntToStr (cfg.getIntOrDefault "port") ++ ")/?".toList ++ connParams

/-- The addressing part of the DSN built by FirstInstance, after the
credentials: everything from the at sign on.  firstInstanceDSN is provably
the credentials followed by this tail. -/
def dsnTail (cfg : Config) : GoStr :=
  if cfg.get "host" = "localhost".toList ∧ (cfg.changed "socket" = true ∨ cfg.changed "port" = false)
  then "@unix(".toList ++ cfg.get "socket" ++ ")/?".toList ++ connParams
  else "@tcp(".toList ++ cfg.get "host" ++ [':'] ++
       goIntToStr (cfg.getIntOrDefault "port") ++ ")/?".toList ++ connParams

/-- Model of strings.Replace(s, old, new, 1): replace the first occurrence
of old in s, scanning from the left. -/
def goReplaceFirst (old new : GoStr) : GoStr → GoStr
  | [] => if old.isPrefixOf [] then new else []
  | c :: rest =>
    if old.isPrefixOf (c :: rest) then new ++ (c :: rest).drop old.length
    else c :: goReplaceFirst old new rest

/-- Abstract view of the external tengo collaborator used by FirstInstance.
Each field is an arbitrary function of the driver name and the DSN handed
to tengo: the error text rendered when NewInstance fails (or returns nil),
the rendering of a constructed instance, and the error text rendered when
the CanConnect probe fails. -/
structure TengoModel where
  newInstanceErr : String → GoStr → Option GoStr
  instanceStr : String → GoStr → GoStr
  canConnectErr : String → GoStr → Option GoStr

/-- Embedding of FirstInstance from dir.go: the pair of the rendered
instance (when one is returned) and the rendered error (when one is
returned).  No host gives (nil, nil).  A construction failure renders the
invalid-connection message around the DSN, redacting the credentials when a
password was explicitly set.  A failed probe renders the unable-to-connect
message around the external instance and error renderings, with no
redaction step. -/
def FirstInstance (dir : Dir) (t : TengoModel) : Option GoStr × Option GoStr :=
  if !dir.HasHost then (none, none)
  else
    let uap := userAndPass dir.Config
    let dsn := firstInstanceDSN dir.Config
    match t.newInstanceErr "mysql" dsn with
    | some errText =>
      let shownDSN :=
        if dir.Config.changed "password" then
          goReplaceFirst uap (dir.Config.get "user" ++ ":*****".toList) dsn
        else dsn
      (none, some ("Invalid connection information for ".toList ++ dir.Path ++
        " (DSN=".toList ++ shownDSN ++ "): ".toList ++ errText))
    | none =>
      match t.canConnectErr "mysql" dsn with
      | some errText =>
        (none, some ("Unable to connect to ".toList ++ t.instanceStr "mysql" dsn ++
          " for ".toList ++ dir.Path ++ ": ".toList ++ errText))
      | none => (some (t.instanceStr "mysql" dsn), none)

/-- Substring test on modelled Go strings. -/
def goContainsSub (sub : GoStr) : GoStr → Bool
  | [] => sub.isEmpty
  | c :: rest => sub.isPrefixOf (c :: rest) || goContainsSub sub rest

/-- Abstract filesystem as observed by cascadingOptionFiles in dir.go.
Directories are addressed by their component lists (the absolute cleaned
path split on the separator, first empty component discarded).  readDir
returns the sorted entry names of a directory or none on a read error, and
skeemaReadOk tells whether reading the .skeema file of a directory
succeeds. -/
structure GoFS where
  readDir : List String → Option (List String)
  skeemaReadOk : List String → Bool

/-- The per-directory step of the cascadingOptionFiles loop: the .skeema
file collected at component depth n (as the path of its directory) and
whether reading it failed.  A directory read error contributes nothing, as
in the source. -/
def cascLevel (fs : GoFS) (comps : List String) (n : Nat) :
    List (List String) × Bool :=
  let curPath := comps.take (n + 1)
  match fs.readDir curPath with
  | none => ([], false)
  | some entries =>
    if ".skeema" ∈ entries then
      if fs.skeemaReadOk curPath then ([curPath], false) else ([], true)
    else ([], false)

/-- Whether the upward walk of cascadingOptionFiles sets its base marker at
component depth n: the directory is the home directory, or it has a .git
entry. -/
def stopLevel (fs : GoFS) (home : Option (List String)) (comps : List String)
    (n : Nat) : Bool :=
  (some (comps.take (n + 1)) == home) ||
    (match fs.readDir (comps.take (n + 1)) with
     | none => false
     | some entries => ".git" ∈ entries)

/-- The upward loop of cascadingOptionFiles from component depth n down to
depth 0, stopping after the first depth whose directory is the home
directory or holds a .git entry.  Files are accumulated deepest first, as
the source appends them before its final reversal; the flag records whether
some collected .skeema file failed to read. -/
def cascLoop (fs : GoFS) (home : Option (List String)) (comps : List String) :
    Nat → List (List String) × Bool
  | 0 => cascLevel fs comps 0
  | n + 1 =>
    let here := cascLevel fs comps (n + 1)
    if stopLevel fs home comps (n + 1) then here
    else
      let rest := cascLoop fs home comps n
      (here.1 ++ rest.1, here.2 || rest.2)

/-- Embedding of cascadingOptionFiles from dir.go: walk the component
depths of the directory path from deepest to shallowest, collect .skeema
files, stop at the home directory or a .git boundary, and reverse so the
root-most file comes first.  The Bool mirrors whether a non-nil read error
would be returned (which makes NewDir fail). -/
def cascadingOptionFiles (fs : GoFS) (home : Option (List String)) :
    List String → List (List String) × Bool
  | [] => ([], false)
  | c :: cs =>
    let r := cascLoop fs home (c :: cs) ((c :: cs).length - 1)
    (r.1.reverse, r.2)

/-- Modelled from the spec: the Target type produced by the target resolver
is not under src/ (only its consumer in diff.go is).  Per section 3 of the
spec a Target carries its directory and resolution results; the
claims here need only the resolution error component, nullable exactly as
in the spec. -/
structure Target where
  err : Option String
deriving DecidableEq

/-- Modelled from the spec: how one directory resolves during the target
walk.  Per sections 4.7 and 7 of the spec a directory either resolves
(yielding an error-free Target), fails to resolve (yielding exactly one
Target carrying the error), or has no binding of its own to resolve. -/
inductive DirOutcome where
  | resolved
  | failed (msg : String)
  | silent
deriving DecidableEq

/-- Modelled from the spec: the directory subtree walked by the target
resolver, with the resolution outcome at each node. -/
inductive SpecDir where
  | mk (outcome : DirOutcome) (subdirs : List SpecDir)

/-- The resolution outcome at the root of a modelled subtree. -/
def SpecDir.outcome : SpecDir → DirOutcome
  | SpecDir.mk o _ => o

/-- The child subtrees of a modelled subtree. -/
def SpecDir.subdirs : SpecDir → List SpecDir
  | SpecDir.mk _ ds => ds

/-- The targets emitted for one directory before descending, per its
outcome. -/
def targetsHere (o : DirOutcome) : List Target :=
  match o with
  | DirOutcome.resolved => [{ err := none }]
  | DirOutcome.failed msg => [{ err := some msg }]
  | DirOutcome.silent => []

mutual
/-- Modelled from the spec: generateTargetsForDir is not under src/ (only
the Targets wrapper in dir.go that runs it on a channel is).  Per section
4.7 of the spec the walk is depth-first, emits the targets of a directory
before descending into its subtree, and isolates per-directory failures to
their own Target.  The channel handoff is modelled as the emitted
sequence. -/
def generateTargetsForDir : SpecDir → List Target
  | SpecDir.mk o ds => targetsHere o ++ generateTargetsForSubdirs ds

/-- The concatenated emissions of a list of sibling subtrees, in order. -/
def generateTargetsForSubdirs : List SpecDir → List Target
  | [] => []
  | d :: ds => generateTargetsForDir d ++ generateTargetsForSubdirs ds
end

/-- The concrete filesystem of the cascading-discovery example: a .git
boundary and a .skeema file at proj, a .skeema file at sub, and further
.skeema files above the boundary at user and home that must never be
collected. -/
def exampleFS : GoFS where
  readDir p :=
    if p = ["home", "user", "proj", "sub"] then some [".skeema"]
    else if p = ["home", "user", "proj"] then some [".git", ".skeema"]
    else if p = ["home", "user"] then some [".skeema"]
    else if p = ["home"] then some [".skeema"]
    else none
  skeemaReadOk _ := true

/-- A directory configuration with an explicitly set host, user, port and a
password parameterized by the caller; socket never set. -/
def tcpConfig (pw : GoStr) : Config where
  changed k := k = "host" || k = "port" || k = "user" || k = "password"
  get k :=
    if k = "host" then "h".toList
    else if k = "user" then "u".toList
    else if k = "password" then pw
    else []
  getIntOrDefault k := if k = "port" then 3306 else 0

/-- An external-behavior model whose probe-failure error echoes the DSN it
was handed, as a connection library reporting the address it tried may
do.  Construction always succeeds. -/
def echoTengo : TengoModel where
  newInstanceErr _ _ := none
  instanceStr _ _ := "h:3306".toList
  canConnectErr _ dsn := some dsn

/-- An external-behavior model whose construction step always fails with a
fixed error text that does not depend on the DSN. -/
def failTengo : TengoModel where
  newInstanceErr _ _ := some "boom".toList
  instanceStr _ _ := []
  canConnectErr _ _ := none

/-- A required-value boolean descriptor with a zero default, as produced by
chaining ValueRequired onto BoolOption. -/
def reqBoolOpt : GoOption :=
  (BoolOption "x".toList (Char.ofNat 0) false "d".toList).ValueRequired

/-- A non-required boolean descriptor with a truthy default, as the source
builds for the verify flag of the diff command. -/
def verifyBoolOpt : GoOption :=
  BoolOption "verify".toList (Char.ofNat 0) true "d".toList

/-- A three-leaf subtree under a silent root in which exactly the leaf at
the given index fails to resolve and the other two resolve. -/
def threeLeafTree (i : Nat) : SpecDir :=
  SpecDir.mk DirOutcome.silent
    [SpecDir.mk (if i = 0 then DirOutcome.failed "bad" else DirOutcome.resolved) [],
     SpecDir.mk (if i = 1 then DirOutcome.failed "bad" else DirOutcome.resolved) [],
     SpecDir.mk (if i = 2 then DirOutcome.failed "bad" else DirOutcome.resolved) []]

/-- A configuration with no key explicitly set anywhere. -/
def unboundConfig : Config where
  changed _ := false
  get _ := []
  getIntOrDefault _ := 0

/-- A localhost configuration with socket explicitly set and port explicitly
set or not per the parameter. -/
def localSockConfig (portSet : Bool) : Config where
  changed k := k = "host" || k = "socket" || (portSet && k = "port")
  get k :=
    if k = "host" then "localhost".toList
    else if k = "socket" then "/tmp/x.sock".toList
    else []
  getIntOrDefault k := if k = "port" then 3306 else 0

/-- A localhost configuration with port explicitly set and no socket set. -/
def localPortConfig : Config where
  changed k := k = "host" || k = "port"
  get k := if k = "host" then "localhost".toList else []
  getIntOrDefault k := if k = "port" then 3306 else 0

/-- A non-localhost configuration with one field of socket state controlled
by the parameters: whether socket is explicitly set and what its value is. -/
def remoteConfig (sockSet : Bool) (sock : GoStr) : Config where
  changed k := k = "host" || k = "port" || (sockSet && k = "socket")
  get k :=
    if k = "host" then "db.example".toList
    else if k = "socket" then sock
    else []
  getIntOrDefault k := if k = "port" then 3307 else 0


/-! Helper lemmas about the modelled character operations. -/

/-- Each character is either fixed by the lowering map or is an uppercase
letter sent to a lowercase letter. -/
theorem goToLowerChar_spec (c : Char) :
    goToLowerChar c = c ∨ (c ∈ upperChars ∧ goToLowerChar c ∈ lowerChars) := by
  unfold goToLowerChar
  split <;> simp_all [upperChars, lowerChars]

/-- Lowercase letters are fixed by the lowering map. -/
theorem goToLowerChar_fixed_lower : ∀ x ∈ lowerChars, goToLowerChar x = x := by decide

/-- The lowering map is idempotent. -/
theorem goToLowerChar_idem (c : Char) :
    goToLowerChar (goToLowerChar c) = goToLowerChar c := by
  rcases goToLowerChar_spec c with h | ⟨_, h⟩
  · rw [h, h]
  · exact goToLowerChar_fixed_lower _ h

/-- Lowercase letters are not white space. -/
theorem lowerChars_not_space : ∀ x ∈ lowerChars, goIsSpace x = false := by decide

/-- Uppercase letters are not white space. -/
theorem upperChars_not_space : ∀ x ∈ upperChars, goIsSpace x = false := by decide

/-- Lowercase letters are not the underscore. -/
theorem lowerChars_ne_underscore : ∀ x ∈ lowerChars, x ≠ '_' := by decide

/-- The lowering map does not change whether a character is white space. -/
theorem goIsSpace_goToLowerChar (c : Char) :
    goIsSpace (goToLowerChar c) = goIsSpace c := by
  rcases goToLowerChar_spec c with h | ⟨hu, hl⟩
  · rw [h]
  · rw [lowerChars_not_space _ hl, upperChars_not_space _ hu]

/-- Only the underscore lowers to a character equal to the underscore. -/
theorem goToLowerChar_eq_underscore {c : Char} (h : goToLowerChar c = '_') :
    c = '_' := by
  rcases goToLowerChar_spec c with h2 | ⟨_, h2⟩
  · rw [← h2]; exact h
  · rw [h] at h2; exact absurd h2 (by decide)

/-- Only the equals sign lowers to a character equal to the equals sign. -/
theorem goToLowerChar_eq_eq {c : Char} (h : goToLowerChar c = '=') :
    c = '=' := by
  rcases goToLowerChar_spec c with h2 | ⟨_, h2⟩
  · rw [← h2]; exact h
  · rw [h] at h2; exact absurd h2 (by decide)

/-- Underscore replacement never returns the underscore. -/
theorem goReplUChar_ne_underscore (c : Char) : goReplUChar c ≠ '_' := by
  unfold goReplUChar; split <;> simp_all

/-- Underscore replacement returns the equals sign only on the equals sign. -/
theorem goReplUChar_eq_eq {c : Char} (h : goReplUChar c = '=') : c = '=' := by
  revert h; unfold goReplUChar; split <;> simp_all

/-- Underscore replacement does not change whether a character is space. -/
theorem goIsSpace_goReplUChar (c : Char) :
    goIsSpace (goReplUChar c) = goIsSpace c := by
  unfold goReplUChar; split
  · simp_all; decide
  · rfl

/-- The composite per-character key normalization is fixed by lowering. -/
theorem goToLowerChar_replU_lower (c : Char) :
    goToLowerChar (goReplUChar (goToLowerChar c)) = goReplUChar (goToLowerChar c) := by
  rcases goToLowerChar_spec c with h | ⟨_, hl⟩
  · rw [h]; unfold goReplUChar; split
    · decide
    · exact h
  · rw [show goReplUChar (goToLowerChar c) = goToLowerChar c by
      unfold goReplUChar; exact if_neg (lowerChars_ne_underscore _ hl)]
    exact goToLowerChar_fixed_lower _ hl

/-! Helper lemmas about the modelled string operations. -/

/-- A map whose function fixes every member fixes the list. -/
theorem map_fixed_of_mem {α : Type} {f : α → α} :
    ∀ l : List α, (∀ c ∈ l, f c = c) → l.map f = l := by
  intro l h
  induction l with
  | nil => rfl
  | cons x xs ih =>
    simp only [List.map_cons]
    rw [h x (List.mem_cons_self x xs), ih (fun c hc => h c (List.mem_cons_of_mem x hc))]

/-- A list whose head does not satisfy the predicate is fixed by dropWhile. -/
theorem dropWhile_eq_self_of_head {p : Char → Bool} (l : GoStr)
    (h : ∀ c, l.head? = some c → p c = false) : l.dropWhile p = l := by
  cases l with
  | nil => rfl
  | cons x xs => rw [List.dropWhile_cons, if_neg (by simp [h x rfl])]

/-- The head of a dropWhile result does not satisfy the predicate. -/
theorem head?_dropWhile_false {p : Char → Bool} :
    ∀ (l : GoStr) (c : Char), (l.dropWhile p).head? = some c → p c = false := by
  intro l
  induction l with
  | nil => intro c h; simp at h
  | cons x xs ih =>
    intro c h
    rw [List.dropWhile_cons] at h
    by_cases hp : p x
    · rw [if_pos hp] at h; exact ih c h
    · rw [if_neg hp] at h
      have hx : x = c := by simpa using h
      subst hx
      simpa using hp

/-- The last element of a dropWhile result is a last element of the list. -/
theorem getLast?_dropWhile_of_some {p : Char → Bool} :
    ∀ (l : GoStr) (c : Char), (l.dropWhile p).getLast? = some c → l.getLast? = some c := by
  intro l
  induction l with
  | nil => intro c h; simp at h
  | cons x xs ih =>
    intro c h
    rw [List.dropWhile_cons] at h
    by_cases hp : p x
    · rw [if_pos hp] at h
      have h2 := ih c h
      cases xs with
      | nil => simp at h2
      | cons y ys => rw [List.getLast?_cons_cons]; exact h2
    · rwa [if_neg hp] at h

/-- The last element of a drop result is a last element of the list. -/
theorem getLast?_drop_of_some :
    ∀ (n : Nat) (l : GoStr) (c : Char), (l.drop n).getLast? = some c → l.getLast? = some c := by
  intro n
  induction n with
  | zero => intro l c h; simpa using h
  | succ m ih =>
    intro l c h
    cases l with
    | nil => simp at h
    | cons x xs =>
      rw [List.drop_succ_cons] at h
      have h2 := ih xs c h
      cases xs with
      | nil => simp at h2
      | cons y ys => rw [List.getLast?_cons_cons]; exact h2

/-- The last character of a right-trimmed string is not white space. -/
theorem goTrimRight_getLast? (l : GoStr) :
    ∀ c, (goTrimRight l).getLast? = some c → goIsSpace c = false := by
  intro c h
  unfold goTrimRight at h
  rw [List.getLast?_reverse] at h
  exact head?_dropWhile_false _ c h

/-- A string whose last character is not white space is fixed by right
trim. -/
theorem goTrimRight_eq_self (l : GoStr)
    (h : ∀ c, l.getLast? = some c → goIsSpace c = false) : goTrimRight l = l := by
  unfold goTrimRight
  rw [dropWhile_eq_self_of_head l.reverse
    (fun c hc => h c (by rwa [List.head?_reverse] at hc)), List.reverse_reverse]

/-- The last character of a trimmed string is not white space. -/
theorem goTrim_getLast? (l : GoStr) :
    ∀ c, (goTrim l).getLast? = some c → goIsSpace c = false := by
  intro c h
  unfold goTrim goTrimLeft at h
  exact goTrimRight_getLast? l c (getLast?_dropWhile_of_some _ c h)

/-- The first character of a trimmed string is not white space. -/
theorem goTrim_head? (l : GoStr) :
    ∀ c, (goTrim l).head? = some c → goIsSpace c = false := by
  intro c h
  unfold goTrim goTrimLeft at h
  exact head?_dropWhile_false _ c h

/-- A string with no white space at either end is fixed by trimming. -/
theorem goTrim_eq_self (l : GoStr)
    (hh : ∀ c, l.head? = some c → goIsSpace c = false)
    (hl : ∀ c, l.getLast? = some c → goIsSpace c = false) : goTrim l = l := by
  unfold goTrim
  rw [goTrimRight_eq_self l hl]
  exact dropWhile_eq_self_of_head l hh

/-- Trimming is idempotent. -/
theorem goTrim_idem (l : GoStr) : goTrim (goTrim l) = goTrim l :=
  goTrim_eq_self _ (goTrim_head? l) (goTrim_getLast? l)

/-- Members of a trimmed string are members of the string. -/
theorem mem_goTrim {c : Char} {l : GoStr} (h : c ∈ goTrim l) : c ∈ l := by
  unfold goTrim goTrimLeft goTrimRight at h
  have h1 := (List.dropWhile_sublist goIsSpace).subset h
  rw [List.mem_reverse] at h1
  have h2 := (List.dropWhile_sublist goIsSpace).subset h1
  rwa [List.mem_reverse] at h2

/-- Splitting a string without an equals sign returns it whole. -/
theorem goSplitFirstEq_no_eq : ∀ l : GoStr, '=' ∉ l → goSplitFirstEq l = (l, none) := by
  intro l h
  induction l with
  | nil => rfl
  | cons x xs ih =>
    have hx : ¬ x = '=' := fun hx => h (hx ▸ List.mem_cons_self x xs)
    have hxs : '=' ∉ xs := fun hm => h (List.mem_cons_of_mem x hm)
    unfold goSplitFirstEq
    rw [if_neg hx, ih hxs]

/-- Splitting around the first equals sign recovers the two halves. -/
theorem goSplitFirstEq_append : ∀ (k v : GoStr), '=' ∉ k →
    goSplitFirstEq (k ++ '=' :: v) = (k, some v) := by
  intro k
  induction k with
  | nil => intro v _; simp [goSplitFirstEq]
  | cons x xs ih =>
    intro v h
    have hx : ¬ x = '=' := fun hx => h (hx ▸ List.mem_cons_self x xs)
    have hxs : '=' ∉ xs := fun hm => h (List.mem_cons_of_mem x hm)
    simp only [List.cons_append]
    unfold goSplitFirstEq
    rw [if_neg hx, ih v hxs]

/-- The first half returned by the split holds no equals sign. -/
theorem goSplitFirstEq_fst_no_eq : ∀ l : GoStr, '=' ∉ (goSplitFirstEq l).1 := by
  intro l
  induction l with
  | nil => simp [goSplitFirstEq]
  | cons x xs ih =>
    unfold goSplitFirstEq
    by_cases hx : x = '='
    · rw [if_pos hx]; simp
    · rw [if_neg hx]
      intro hm
      rcases List.mem_cons.mp hm with h1 | h1
      · exact hx h1.symm
      · exact ih h1

/-- A list is a Boolean prefix of itself followed by anything. -/
theorem isPrefixOf_append_self (a b : GoStr) : a.isPrefixOf (a ++ b) = true := by
  simp [List.isPrefixOf_iff_prefix]

/-! The canonical-key invariant of NormalizeOptionToken. -/

/-- The trim-lower-replace pipeline yields a canonically shaped key when its
input has no equals sign. -/
theorem canonKey_pipeline (t : GoStr) (ht : '=' ∉ t) :
    canonKey (goReplaceUnderscores (goToLower (goTrim t))) := by
  unfold goReplaceUnderscores goToLower
  refine ⟨?_, ?_, ?_, ?_⟩
  · intro c hc
    obtain ⟨e, he, rfl⟩ := List.mem_map.mp hc
    obtain ⟨d, _, rfl⟩ := List.mem_map.mp he
    exact goToLowerChar_replU_lower d
  · intro h
    obtain ⟨e, _, heq⟩ := List.mem_map.mp h
    exact goReplUChar_ne_underscore e heq
  · intro h
    obtain ⟨e, he, heq⟩ := List.mem_map.mp h
    obtain ⟨d, hd, rfl⟩ := List.mem_map.mp he
    have : d = '=' := goToLowerChar_eq_eq (goReplUChar_eq_eq heq)
    exact ht (this ▸ mem_goTrim hd)
  · intro c h
    rw [List.getLast?_map, List.getLast?_map] at h
    cases hg : (goTrim t).getLast? with
    | none => rw [hg] at h; simp at h
    | some d =>
      rw [hg] at h
      have hc : c = goReplUChar (goToLowerChar d) := by
        simpa using h.symm
      rw [hc, goIsSpace_goReplUChar, goIsSpace_goToLowerChar]
      exact goTrim_getLast? t d hg

/-- Dropping a key marker preserves the canonical shape. -/
theorem canonKey_drop (k : GoStr) (n : Nat) (h : canonKey k) : canonKey (k.drop n) := by
  obtain ⟨h1, h2, h3, h4⟩ := h
  refine ⟨?_, ?_, ?_, ?_⟩
  · intro c hc; exact h1 c (List.drop_subset n k hc)
  · intro hc; exact h2 (List.drop_subset n k hc)
  · intro hc; exact h3 (List.drop_subset n k hc)
  · intro c hc; exact h4 c (getLast?_drop_of_some n k c hc)

/-- The loose-marker stripping step preserves the canonical shape. -/
theorem canonKey_stripLoose (k : GoStr) (h : canonKey k) : canonKey (stripLoose k).1 := by
  unfold stripLoose
  split
  · exact canonKey_drop k 6 h
  · exact h

/-- The negation-marker stripping step preserves the canonical shape. -/
theorem canonKey_stripNegation (k : GoStr) (h : canonKey k) :
    canonKey (stripNegation k).1 := by
  unfold stripNegation
  split
  · exact canonKey_drop k 5 h
  · split
    · exact canonKey_drop k 8 h
    · split
      · exact canonKey_drop k 7 h
      · exact h

/-- Every value produced by normValue is fixed by trimming. -/
theorem normValue_trim_fixed (negated : Bool) (o : Option GoStr) :
    goTrim (normValue negated o) = normValue negated o := by
  cases o with
  | none =>
    unfold normValue
    cases negated
    · simp; rfl
    · simp; decide
  | some rest =>
    unfold normValue
    cases negated
    · simpa using goTrim_idem rest
    · simp only [if_true]
      split
      · decide
      · decide

/-- Every key produced by NormalizeOptionToken is canonically shaped, and
every value it produces is fixed by trimming. -/
theorem NormalizeOptionToken_canon (arg : GoStr) :
    canonKey (NormalizeOptionToken arg).1 ∧
    goTrim (NormalizeOptionToken arg).2.1 = (NormalizeOptionToken arg).2.1 := by
  simp only [NormalizeOptionToken]
  by_cases h0 : goTrim (goSplitFirstEq arg).1 = []
  · rw [if_pos h0]
    exact ⟨⟨by simp, by simp, by simp, by simp⟩, rfl⟩
  · rw [if_neg h0]
    constructor
    · exact canonKey_stripNegation _ (canonKey_stripLoose _
        (canonKey_pipeline _ (goSplitFirstEq_fst_no_eq arg)))
    · exact normValue_trim_fixed _ _

/-! Fixpoint behavior of NormalizeOptionToken on canonically shaped keys. -/

/-- stripLoose is the identity and clears the flag when the marker is
absent. -/
theorem stripLoose_no_marker {k : GoStr} (h : loosePfx.isPrefixOf k = false) :
    stripLoose k = (k, false) := by
  unfold stripLoose; rw [h]; simp

/-- stripNegation is the identity and clears the flag when all three
markers are absent. -/
theorem stripNegation_no_marker {k : GoStr} (hs : skipPfx.isPrefixOf k = false)
    (hd : disablePfx.isPrefixOf k = false) (he : enablePfx.isPrefixOf k = false) :
    stripNegation k = (k, false) := by
  unfold stripNegation; rw [hs, hd, he]; simp

/-- A cons list with a different head is not a Boolean prefix of a cons
list. -/
theorem isPrefixOf_cons_ne {a b : Char} (as bs : List Char) (h : ¬ a = b) :
    (a :: as).isPrefixOf (b :: bs) = false := by
  simp [List.isPrefixOf, h]

/-- The loose- marker as an explicit character list. -/
theorem loosePfx_eq : loosePfx = 'l' :: 'o' :: 'o' :: 's' :: 'e' :: '-' :: [] := rfl

/-- The skip- marker as an explicit character list. -/
theorem skipPfx_eq : skipPfx = 's' :: 'k' :: 'i' :: 'p' :: '-' :: [] := rfl

/-- The disable- marker as an explicit character list. -/
theorem disablePfx_eq :
    disablePfx = 'd' :: 'i' :: 's' :: 'a' :: 'b' :: 'l' :: 'e' :: '-' :: [] := rfl

/-- The enable- marker as an explicit character list. -/
theorem enablePfx_eq :
    enablePfx = 'e' :: 'n' :: 'a' :: 'b' :: 'l' :: 'e' :: '-' :: [] := rfl

/-- The last element of an append comes from the right part, or the right
part is empty and it comes from the left part. -/
theorem getLast?_append_cases (a b : GoStr) (c : Char)
    (h : (a ++ b).getLast? = some c) :
    b.getLast? = some c ∨ (b = [] ∧ a.getLast? = some c) := by
  rw [List.getLast?_append] at h
  cases hb : b.getLast? with
  | some d =>
    rw [hb] at h
    simp only [Option.or_some] at h
    left; exact h
  | none =>
    rw [hb] at h
    simp only [Option.none_or] at h
    right
    exact ⟨List.getLast?_eq_none_iff.mp hb, h⟩

/-- Renormalizing a canonically shaped key with a trim-fixed value returns
both unchanged with no flags. -/
theorem NormalizeOptionToken_of_canon (k v : GoStr)
    (hc : canonKey k) (hne : k ≠ [])
    (hhead : ∀ c, k.head? = some c → goIsSpace c = false)
    (hv : goTrim v = v)
    (hl : loosePfx.isPrefixOf k = false) (hs : skipPfx.isPrefixOf k = false)
    (hd : disablePfx.isPrefixOf k = false) (he : enablePfx.isPrefixOf k = false) :
    NormalizeOptionToken (k ++ '=' :: v) = (k, v, false) := by
  obtain ⟨h1, h2, h3, h4⟩ := hc
  have hk1 : goToLower k = k := map_fixed_of_mem k h1
  have hk2 : goReplaceUnderscores k = k :=
    map_fixed_of_mem k (fun c hc2 => by
      unfold goReplUChar
      rw [if_neg (fun hcc : c = '_' => h2 (hcc ▸ hc2))])
  simp only [NormalizeOptionToken, goSplitFirstEq_append k v h3]
  rw [goTrim_eq_self k hhead h4, if_neg hne, hk1, hk2,
    stripLoose_no_marker hl, stripNegation_no_marker hs hd he]
  simp only [normValue, if_neg (fun h : (false : Bool) = true => by cases h), hv]

/-- The head of an append comes from the left part when that part is not
empty. -/
theorem head?_append_left {a b : GoStr} {c : Char} (ha : a ≠ [])
    (h : (a ++ b).head? = some c) : a.head? = some c := by
  rw [List.head?_append] at h
  cases hx : a.head? with
  | none => exact absurd (by simpa using hx) ha
  | some d => rw [hx] at h; simpa using h

/-- stripNegation on a key led by the skip- marker strips it and sets
negation. -/
theorem stripNegation_skip (X : GoStr) : stripNegation (skipPfx ++ X) = (X, true) := by
  unfold stripNegation
  rw [isPrefixOf_append_self, if_pos rfl,
    show List.drop 5 (skipPfx ++ X) = X from List.drop_left' (by rfl)]

/-- stripNegation on a key led by the disable- marker strips it and sets
negation. -/
theorem stripNegation_disable (X : GoStr) :
    stripNegation (disablePfx ++ X) = (X, true) := by
  have h1 : skipPfx.isPrefixOf (disablePfx ++ X) = false := by
    rw [skipPfx_eq, disablePfx_eq]
    simp only [List.cons_append]
    exact isPrefixOf_cons_ne _ _ (by decide)
  unfold stripNegation
  rw [h1]
  simp only [Bool.false_eq_true, if_false]
  rw [isPrefixOf_append_self, if_pos rfl,
    show List.drop 8 (disablePfx ++ X) = X from List.drop_left' (by rfl)]

/-- Normalization of a token led by a negation marker, for any marker that
survives the loose- check, is itself unchanged by key normalization, and is
stripped by stripNegation with negation set: the canonical name after the
marker comes back as the key, a missing value becomes 0, and a supplied
value becomes 1 exactly when it is falsey after trimming and lowering. -/
theorem NormalizeOptionToken_negated_pfx (p X : GoStr)
    (hlow : ∀ c ∈ X, goToLowerChar c = c) (hund : '_' ∉ X) (heq : '=' ∉ X)
    (hlast : ∀ c, X.getLast? = some c → goIsSpace c = false)
    (hpeq : '=' ∉ p) (hpne : p ≠ [])
    (hphead : ∀ c, p.head? = some c → goIsSpace c = false)
    (hplast : ∀ c, p.getLast? = some c → goIsSpace c = false)
    (hplow : goToLower p = p) (hprep : goReplaceUnderscores p = p)
    (hloose : loosePfx.isPrefixOf (p ++ X) = false)
    (hneg : stripNegation (p ++ X) = (X, true)) :
    NormalizeOptionToken (p ++ X) = (X, zeroStr, false) ∧
    ∀ v : GoStr, NormalizeOptionToken (p ++ (X ++ '=' :: v)) =
      (X, if goToLower (goTrim v) ∈ falseyVals then oneStr else zeroStr, false) := by
  have hEqAll : '=' ∉ p ++ X := by
    intro h
    rcases List.mem_append.mp h with h | h
    · exact hpeq h
    · exact heq h
  have hne : p ++ X ≠ [] := by
    intro h
    exact hpne (List.append_eq_nil.mp h).1
  have headFact : ∀ c, (p ++ X).head? = some c → goIsSpace c = false :=
    fun c hc => hphead c (head?_append_left hpne hc)
  have lastFact : ∀ c, (p ++ X).getLast? = some c → goIsSpace c = false := by
    intro c hc
    rcases getLast?_append_cases p X c hc with h | ⟨_, h⟩
    · exact hlast c h
    · exact hplast c h
  have hTrim : goTrim (p ++ X) = p ++ X := goTrim_eq_self _ headFact lastFact
  have hLower : goToLower (p ++ X) = p ++ X := by
    unfold goToLower at hplow ⊢
    rw [List.map_append, hplow, map_fixed_of_mem X hlow]
  have hRepl : goReplaceUnderscores (p ++ X) = p ++ X := by
    unfold goReplaceUnderscores at hprep ⊢
    rw [List.map_append, hprep, map_fixed_of_mem X (fun c hc2 => by
      unfold goReplUChar
      rw [if_neg (fun hcc : c = '_' => hund (hcc ▸ hc2))])]
  constructor
  · have hsplit : goSplitFirstEq (p ++ X) = (p ++ X, none) :=
      goSplitFirstEq_no_eq _ hEqAll
    simp only [NormalizeOptionToken, hsplit]
    rw [hTrim, if_neg hne, hLower, hRepl, stripLoose_no_marker hloose, hneg]
    rfl
  · intro v
    have hsplit : goSplitFirstEq ((p ++ X) ++ '=' :: v) = (p ++ X, some v) :=
      goSplitFirstEq_append _ v hEqAll
    rw [← List.append_assoc]
    simp only [NormalizeOptionToken, hsplit]
    rw [hTrim, if_neg hne, hLower, hRepl, stripLoose_no_marker hloose, hneg]
    simp [normValue]

/-! Claim theorems for token normalization. -/

/-- C2 counterexample: the pair (skip-x, 0) is canonical, being the output
of NormalizeOptionToken on skip-skip-x, yet renormalizing skip-x=0 yields
the different pair (x, 1): markers are stripped once, not recursively, so
idempotence fails on marker-led canonical keys. -/
theorem NormalizeOptionToken_not_idem :
    NormalizeOptionToken "skip-skip-x".toList = ("skip-x".toList, "0".toList, false) ∧
    NormalizeOptionToken "skip-x=0".toList = ("x".toList, "1".toList, false) ∧
    ("x".toList, "1".toList, false) ≠ ("skip-x".toList, "0".toList, false) := by
  exact ⟨by decide, by decide, by decide⟩

/-- C2 (amended): token normalization is idempotent on canonical pairs
whose key is nonempty and does not begin with white space or with one of
the loose-, skip-, disable-, enable- markers; renormalizing the pair as
key=value returns the same key and value with both flags cleared. -/
theorem NormalizeOptionToken_idem_amended (arg : GoStr)
    (hne : (NormalizeOptionToken arg).1 ≠ [])
    (hhead : ∀ c, (NormalizeOptionToken arg).1.head? = some c → goIsSpace c = false)
    (hl : loosePfx.isPrefixOf (NormalizeOptionToken arg).1 = false)
    (hs : skipPfx.isPrefixOf (NormalizeOptionToken arg).1 = false)
    (hd : disablePfx.isPrefixOf (NormalizeOptionToken arg).1 = false)
    (he : enablePfx.isPrefixOf (NormalizeOptionToken arg).1 = false) :
    NormalizeOptionToken
        ((NormalizeOptionToken arg).1 ++ '=' :: (NormalizeOptionToken arg).2.1) =
      ((NormalizeOptionToken arg).1, (NormalizeOptionToken arg).2.1, false) := by
  obtain ⟨hc, hv⟩ := NormalizeOptionToken_canon arg
  exact NormalizeOptionToken_of_canon _ _ hc hne hhead hv hl hs hd he

/-- Witness for the amended C2: the canonical pair (my-opt, Hello) coming
from My_Opt=Hello renormalizes to itself. -/
theorem NormalizeOptionToken_idem_amended_witness :
    NormalizeOptionToken "my-opt=Hello".toList =
      ("my-opt".toList, "Hello".toList, false) := by
  have e : NormalizeOptionToken "My_Opt=Hello".toList =
      ("my-opt".toList, "Hello".toList, false) := by decide
  have h := NormalizeOptionToken_idem_amended "My_Opt=Hello".toList
    (by rw [e]; decide)
    (by rw [e]; intro c hc; simp at hc; subst hc; decide)
    (by rw [e]; decide) (by rw [e]; decide) (by rw [e]; decide) (by rw [e]; decide)
  rw [e] at h
  exact h

/-- C3: for any canonical option name X (lowering-fixed characters, no
underscore, no equals sign, no trailing space) and either negation marker,
the bare negated token yields key X with value 0; a supplied value yields
key X with value 1 when the value is falsey after trimming and lowering
(the double negative) and value 0 otherwise. -/
theorem NormalizeOptionToken_negation (X : GoStr)
    (hlow : ∀ c ∈ X, goToLowerChar c = c) (hund : '_' ∉ X) (heq : '=' ∉ X)
    (hlast : ∀ c, X.getLast? = some c → goIsSpace c = false) :
    ∀ pfx ∈ [skipPfx, disablePfx],
      NormalizeOptionToken (pfx ++ X) = (X, zeroStr, false) ∧
      ∀ v : GoStr, NormalizeOptionToken (pfx ++ (X ++ '=' :: v)) =
        (X, if goToLower (goTrim v) ∈ falseyVals then oneStr else zeroStr, false) := by
  intro pfx hpfx
  rcases List.mem_cons.mp hpfx with hp | hp
  · subst hp
    refine NormalizeOptionToken_negated_pfx _ X hlow hund heq hlast
      (by decide) (by decide)
      (by intro c hc; rw [skipPfx_eq] at hc; simp at hc; subst hc; decide)
      (by intro c hc; rw [skipPfx_eq] at hc; simp at hc; subst hc; decide)
      (by decide) (by decide) ?_ (stripNegation_skip X)
    rw [loosePfx_eq, skipPfx_eq]
    simp only [List.cons_append]
    exact isPrefixOf_cons_ne _ _ (by decide)
  · rcases List.mem_cons.mp hp with hp2 | hp2
    · subst hp2
      refine NormalizeOptionToken_negated_pfx _ X hlow hund heq hlast
        (by decide) (by decide)
        (by intro c hc; rw [disablePfx_eq] at hc; simp at hc; subst hc; decide)
        (by intro c hc; rw [disablePfx_eq] at hc; simp at hc; subst hc; decide)
        (by decide) (by decide) ?_ (stripNegation_disable X)
      rw [loosePfx_eq, disablePfx_eq]
      simp only [List.cons_append]
      exact isPrefixOf_cons_ne _ _ (by decide)
    · simp at hp2

/-- Witness for C3: skip-x, skip-x=0 and skip-x=1 behave as claimed for
the concrete name x, and likewise disable-x with the case-insensitive
falsey value OFF. -/
theorem NormalizeOptionToken_negation_witness :
    NormalizeOptionToken "skip-x".toList = ("x".toList, "0".toList, false) ∧
    NormalizeOptionToken "skip-x=0".toList = ("x".toList, "1".toList, false) ∧
    NormalizeOptionToken "skip-x=1".toList = ("x".toList, "0".toList, false) ∧
    NormalizeOptionToken "disable-x=OFF".toList = ("x".toList, "1".toList, false) := by
  have hx := NormalizeOptionToken_negation "x".toList
    (by decide) (by decide) (by decide)
    (by intro c hc; simp at hc; subst hc; decide)
  have hskip := hx skipPfx (by simp)
  have hdis := hx disablePfx (by simp)
  refine ⟨hskip.1, ?_, ?_, ?_⟩
  · have h := hskip.2 "0".toList
    have e : (if goToLower (goTrim "0".toList) ∈ falseyVals then oneStr else zeroStr) =
        "1".toList := by decide
    rw [e] at h
    simpa using h
  · have h := hskip.2 "1".toList
    simpa using h
  · have h := hdis.2 "OFF".toList
    simpa using h

/-- C9: a token whose key half trims to the empty string normalizes to an
empty key, an empty value, and a cleared loose flag; any value after the
equals sign is discarded. -/
theorem NormalizeOptionToken_empty_key (arg : GoStr)
    (h : goTrim (goSplitFirstEq arg).1 = []) :
    NormalizeOptionToken arg = ([], [], false) := by
  simp only [NormalizeOptionToken]
  rw [if_pos h]

/-- Witness for C9: both =value and a blank-keyed token with a value
normalize to the all-empty result. -/
theorem NormalizeOptionToken_empty_key_witness :
    NormalizeOptionToken "=value".toList = ([], [], false) ∧
    NormalizeOptionToken "  = x".toList = ([], [], false) :=
  ⟨NormalizeOptionToken_empty_key _ (by decide),
   NormalizeOptionToken_empty_key _ (by decide)⟩

/-! Claim theorems for instance-key and first-instance derivation. -/

/-- C4: InstanceKey is empty without an explicit host; for localhost the
socket form localhost:socketPath is used whenever a socket is explicitly
set (whether or not a port is) or no port is explicitly set; localhost
with an explicit port and no socket, and every non-localhost host, use the
host:port form. -/
theorem InstanceKey_spec (cfg : Config) :
    (cfg.changed "host" = false → InstanceKey cfg = []) ∧
    (cfg.changed "host" = true → cfg.get "host" = "localhost".toList →
      cfg.changed "socket" = true →
      InstanceKey cfg = "localhost:".toList ++ cfg.get "socket") ∧
    (cfg.changed "host" = true → cfg.get "host" = "localhost".toList →
      cfg.changed "port" = false →
      InstanceKey cfg = "localhost:".toList ++ cfg.get "socket") ∧
    (cfg.changed "host" = true → cfg.get "host" = "localhost".toList →
      cfg.changed "socket" = false → cfg.changed "port" = true →
      InstanceKey cfg = "localhost:".toList ++ goIntToStr (cfg.getIntOrDefault "port")) ∧
    (cfg.changed "host" = true → cfg.get "host" ≠ "localhost".toList →
      InstanceKey cfg = cfg.get "host" ++ [':'] ++ goIntToStr (cfg.getIntOrDefault "port")) := by
  refine ⟨?_, ?_, ?_, ?_, ?_⟩
  · intro h
    unfold InstanceKey
    rw [h]
    simp
  · intro h1 h2 h3
    unfold InstanceKey
    rw [h1, h2, if_neg (by simp), if_pos (by simp [h3])]
    rfl
  · intro h1 h2 h3
    unfold InstanceKey
    rw [h1, h2, if_neg (by simp), if_pos (by simp [h3])]
    rfl
  · intro h1 h2 h3 h4
    unfold InstanceKey
    rw [h1, h2, if_neg (by simp), if_neg (by simp [h3, h4])]
    rfl
  · intro h1 h2
    unfold InstanceKey
    rw [h1, if_neg (by simp), if_neg (fun hc => h2 hc.1)]

/-- Witness for C4: with socket /tmp/x.sock the key is
localhost:/tmp/x.sock whether or not the port is explicitly set, and with
an explicit port 3306 and no socket the key is localhost:3306. -/
theorem InstanceKey_spec_witness :
    InstanceKey (localSockConfig false) = "localhost:/tmp/x.sock".toList ∧
    InstanceKey (localSockConfig true) = "localhost:/tmp/x.sock".toList ∧
    InstanceKey localPortConfig = "localhost:3306".toList := by
  refine ⟨?_, ?_, ?_⟩
  · have h := (InstanceKey_spec (localSockConfig false)).2.1
      (by decide) (by decide) (by decide)
    rw [h]; decide
  · have h := (InstanceKey_spec (localSockConfig true)).2.1
      (by decide) (by decide) (by decide)
    rw [h]; decide
  · have h := (InstanceKey_spec localPortConfig).2.2.2.1
      (by decide) (by decide) (by decide) (by decide)
    rw [h]; decide

/-- C8: a directory whose configuration never had host explicitly set
resolves to no instance and no error, whatever the external database
behavior is. -/
theorem FirstInstance_no_host (dir : Dir) (t : TengoModel)
    (h : dir.Config.changed "host" = false) :
    FirstInstance dir t = (none, none) := by
  unfold FirstInstance Dir.HasHost
  rw [h]
  simp

/-- Witness for C8: the unbound configuration yields (nil, nil) even under
an external model that would fail every construction. -/
theorem FirstInstance_no_host_witness :
    FirstInstance { Path := "/d".toList, Config := unboundConfig } failTengo =
      (none, none) :=
  FirstInstance_no_host _ _ (by decide)

/-- C10: when host is explicitly set to something other than localhost, the
instance key is host:port, the DSN is the tcp form, and neither depends on
the socket option: a second configuration differing only in whether the
socket is set and its value yields the same key and the same DSN. -/
theorem remote_host_ignores_socket (cfg cfg2 : Config)
    (hhost : cfg.changed "host" = true)
    (hne : cfg.get "host" ≠ "localhost".toList)
    (h1 : cfg2.changed "host" = cfg.changed "host")
    (h2 : cfg2.get "host" = cfg.get "host")
    (h3 : cfg2.changed "port" = cfg.changed "port")
    (h4 : cfg2.getIntOrDefault "port" = cfg.getIntOrDefault "port")
    (h5 : cfg2.get "user" = cfg.get "user")
    (h6 : cfg2.changed "password" = cfg.changed "password")
    (h7 : cfg2.get "password" = cfg.get "password") :
    InstanceKey cfg = cfg.get "host" ++ [':'] ++ goIntToStr (cfg.getIntOrDefault "port") ∧
    firstInstanceDSN cfg = userAndPass cfg ++ "@tcp(".toList ++ cfg.get "host" ++ [':'] ++
      goIntToStr (cfg.getIntOrDefault "port") ++ ")/?".toList ++ connParams ∧
    InstanceKey cfg2 = InstanceKey cfg ∧
    firstInstanceDSN cfg2 = firstInstanceDSN cfg := by
  have hkey : InstanceKey cfg = cfg.get "host" ++ [':'] ++ goIntToStr (cfg.getIntOrDefault "port") := by
    unfold InstanceKey
    rw [hhost, if_neg (by simp), if_neg (fun hc => hne hc.1)]
  have hdsn : firstInstanceDSN cfg = userAndPass cfg ++ "@tcp(".toList ++ cfg.get "host" ++ [':'] ++
      goIntToStr (cfg.getIntOrDefault "port") ++ ")/?".toList ++ connParams := by
    unfold firstInstanceDSN
    rw [if_neg (fun hc => hne hc.1)]
  refine ⟨hkey, hdsn, ?_, ?_⟩
  · have hkey2 : InstanceKey cfg2 =
        cfg.get "host" ++ [':'] ++ goIntToStr (cfg.getIntOrDefault "port") := by
      unfold InstanceKey
      rw [h1, hhost, h2, h3, h4, if_neg (by simp), if_neg (fun hc => hne hc.1)]
    exact hkey2.trans hkey.symm
  · have hdsn2 : firstInstanceDSN cfg2 = userAndPass cfg ++ "@tcp(".toList ++
        cfg.get "host" ++ [':'] ++ goIntToStr (cfg.getIntOrDefault "port") ++
        ")/?".toList ++ connParams := by
      unfold firstInstanceDSN userAndPass
      rw [h2, h3, h4, h5, h6, h7, if_neg (fun hc => hne hc.1)]
    exact hdsn2.trans hdsn.symm

/-- Witness for C10: a db.example configuration with port 3307 has key
db.example:3307, and setting a socket value leaves both the key and the
DSN unchanged. -/
theorem remote_host_ignores_socket_witness :
    InstanceKey (remoteConfig false []) =
      "db.example".toList ++ [':'] ++ goIntToStr ((remoteConfig false []).getIntOrDefault "port") ∧
    InstanceKey (remoteConfig true "/tmp/x.sock".toList) = InstanceKey (remoteConfig false []) ∧
    firstInstanceDSN (remoteConfig true "/tmp/x.sock".toList) =
      firstInstanceDSN (remoteConfig false []) := by
  have h := remote_host_ignores_socket (remoteConfig false [])
    (remoteConfig true "/tmp/x.sock".toList)
    (by decide) (by decide) (by decide) (by decide) (by decide) (by decide)
    (by decide) (by decide) (by decide)
  exact ⟨h.1, h.2.2.1, h.2.2.2⟩

/-! Claim theorems for password handling in FirstInstance. -/

/-- The DSN built by FirstInstance is the credentials followed by the
addressing tail, in both addressing modes. -/
theorem firstInstanceDSN_eq (cfg : Config) :
    firstInstanceDSN cfg = userAndPass cfg ++ dsnTail cfg := by
  unfold firstInstanceDSN dsnTail
  split <;> simp [List.append_assoc]

/-- Replacing the first occurrence of a string in a string it leads
rewrites exactly that leading occurrence. -/
theorem goReplaceFirst_leading (old new rest : GoStr) :
    goReplaceFirst old new (old ++ rest) = new ++ rest := by
  cases old with
  | nil =>
    cases rest with
    | nil => simp [goReplaceFirst]
    | cons c r => simp [goReplaceFirst]
  | cons o os =>
    show goReplaceFirst (o :: os) new (o :: (os ++ rest)) = new ++ rest
    unfold goReplaceFirst
    rw [show List.isPrefixOf (o :: os) (o :: (os ++ rest)) = true from
      isPrefixOf_append_self (o :: os) rest, if_pos rfl]
    congr 1
    exact List.drop_left' rfl

/-- C5 counterexample: with host set to h, user u and an explicitly set
password, an external probe failure that echoes the DSN it was handed puts
the raw password into the error FirstInstance returns (no redaction step
runs on that path), and two runs differing only in the password return
different errors. -/
theorem FirstInstance_probe_leak :
    goContainsSub "topsecret".toList
      ((FirstInstance { Path := "/d".toList, Config := tcpConfig "topsecret".toList }
        echoTengo).2.getD []) = true ∧
    FirstInstance { Path := "/d".toList, Config := tcpConfig "a".toList } echoTengo ≠
      FirstInstance { Path := "/d".toList, Config := tcpConfig "b".toList } echoTengo := by
  exact ⟨by decide, by decide⟩

/-- C5 (amended): the construction-failure path of FirstInstance redacts
the credentials inside the DSN it reports: whenever the password is
explicitly set and construction fails, two configurations that agree on
everything FirstInstance reads except the password produce identical
errors, provided the external construction error text is the same for
both DSNs.  The probe-failure path applies no redaction of its own. -/
theorem FirstInstance_construction_redacts (path : GoStr) (cfg cfg2 : Config)
    (t : TengoModel) (e : GoStr)
    (hhost : cfg.changed "host" = true) (hhost2 : cfg2.changed "host" = true)
    (hpw : cfg.changed "password" = true) (hpw2 : cfg2.changed "password" = true)
    (hu : cfg2.get "user" = cfg.get "user")
    (hh : cfg2.get "host" = cfg.get "host")
    (hs : cfg2.changed "socket" = cfg.changed "socket")
    (hsv : cfg2.get "socket" = cfg.get "socket")
    (hp : cfg2.changed "port" = cfg.changed "port")
    (hpv : cfg2.getIntOrDefault "port" = cfg.getIntOrDefault "port")
    (herr : t.newInstanceErr "mysql" (firstInstanceDSN cfg) = some e)
    (herr2 : t.newInstanceErr "mysql" (firstInstanceDSN cfg2) = some e) :
    FirstInstance { Path := path, Config := cfg } t =
      FirstInstance { Path := path, Config := cfg2 } t := by
  have htail : dsnTail cfg2 = dsnTail cfg := by
    unfold dsnTail
    rw [hh, hs, hsv, hp, hpv]
  unfold FirstInstance Dir.HasHost
  simp only [hhost, hhost2, Bool.not_true, Bool.false_eq_true, if_false]
  simp only [herr, herr2]
  rw [if_pos hpw, if_pos hpw2, firstInstanceDSN_eq cfg, firstInstanceDSN_eq cfg2,
    goReplaceFirst_leading, goReplaceFirst_leading, hu, htail]

/-- Witness for the amended C5: two concrete configurations with passwords
a and b, under an external model whose construction failure text is the
fixed string boom, yield the same redacted error. -/
theorem FirstInstance_construction_redacts_witness :
    FirstInstance { Path := "/d".toList, Config := tcpConfig "a".toList } failTengo =
      FirstInstance { Path := "/d".toList, Config := tcpConfig "b".toList } failTengo :=
  FirstInstance_construction_redacts "/d".toList (tcpConfig "a".toList)
    (tcpConfig "b".toList) failTengo "boom".toList
    (by decide) (by decide) (by decide) (by decide) (by decide) (by decide)
    (by decide) (by decide) (by decide) (by decide) (by decide) (by decide)

/-! Claim theorems for usage rendering. -/

/-- C7 counterexample: a boolean descriptor with a zero default that was
built with ValueRequired is annotated with a required value, rendered as
a space and the word bool, rather than showing no annotation; so the
value annotation is not reserved to string options, and the bracketed or
absent annotation does not characterize booleans with RequireValue set. -/
theorem usageValue_required_bool :
    reqBoolOpt.OptType = OptionType.bool ∧
    HasNonzeroDefault reqBoolOpt = false ∧
    usageValue reqBoolOpt = " bool".toList ∧
    usageValue reqBoolOpt ≠ [] ∧
    usageValue reqBoolOpt ≠ "[=bool]".toList := by
  exact ⟨by decide, by decide, by decide, by decide, by decide⟩

/-- C7 (amended): the required annotation, a space and the type word, is
shown for every descriptor declaring RequireValue, of either type, and the
specific annotation " string" appears exactly for required string options;
among descriptors not declaring RequireValue, a boolean shows [=bool]
exactly when its default is truthy and shows no annotation exactly when
its default is zero. -/
theorem usageValue_spec (opt : GoOption) :
    (usageValue opt = " string".toList ↔
      (opt.RequireValue = true ∧ opt.OptType = OptionType.string)) ∧
    (opt.RequireValue = true → usageValue opt = ' ' :: optTypeStr opt.OptType) ∧
    (opt.RequireValue = false → opt.OptType = OptionType.bool →
      ((usageValue opt = "[=bool]".toList ↔ HasNonzeroDefault opt = true) ∧
       (usageValue opt = [] ↔ HasNonzeroDefault opt = false))) := by
  refine ⟨?_, ?_, ?_⟩
  · unfold usageValue
    cases hr : opt.RequireValue <;> cases ho : opt.OptType <;>
      cases hd : HasNonzeroDefault opt <;> decide
  · intro hr
    unfold usageValue
    rw [hr]
    simp
  · intro hr hb
    unfold usageValue
    rw [hr, hb]
    cases hd : HasNonzeroDefault opt <;> decide

/-- Witness for the amended C7: the required string option user renders
" string", and the non-required truthy-default boolean verify renders
"[=bool]". -/
theorem usageValue_spec_witness :
    usageValue (StringOption "user".toList 'u' "root".toList "d".toList) =
      " string".toList ∧
    usageValue verifyBoolOpt = "[=bool]".toList := by
  constructor
  · exact (usageValue_spec _).1.mpr ⟨by decide, by decide⟩
  · exact ((usageValue_spec verifyBoolOpt).2.2 (by decide) (by decide)).1.mpr (by decide)

/-! Claim theorems for cascading option-file discovery. -/

/-- A file collected at one depth is the directory at that depth, and that
directory listed successfully with a .skeema entry present. -/
theorem cascLevel_mem (fs : GoFS) (comps : List String) (n : Nat) (p : List String)
    (h : p ∈ (cascLevel fs comps n).1) :
    p = comps.take (n + 1) ∧
    (∃ es, fs.readDir (comps.take (n + 1)) = some es ∧ ".skeema" ∈ es) := by
  simp only [cascLevel] at h
  split at h
  next => simp at h
  next es hr =>
    split at h
    next hs =>
      split at h
      next =>
        simp at h
        exact ⟨h, es, hr, hs⟩
      next => simp at h
    next => simp at h

/-- The levels collected by the upward loop: every file comes from a depth
at or below the starting depth, its directory listed a .skeema entry, and
no stop boundary lies strictly between its depth and the starting depth. -/
theorem cascLoop_mem (fs : GoFS) (home : Option (List String)) (comps : List String) :
    ∀ (n : Nat) (p : List String), p ∈ (cascLoop fs home comps n).1 →
      ∃ m, m ≤ n ∧ p = comps.take (m + 1) ∧
        (∃ es, fs.readDir (comps.take (m + 1)) = some es ∧ ".skeema" ∈ es) ∧
        ∀ j, m < j → j ≤ n → stopLevel fs home comps j = false := by
  intro n
  induction n with
  | zero =>
    intro p h
    unfold cascLoop at h
    obtain ⟨hp, hsk⟩ := cascLevel_mem fs comps 0 p h
    exact ⟨0, Nat.le_refl 0, hp, hsk, fun j hj1 hj2 => absurd hj2 (by omega)⟩
  | succ m ih =>
    intro p h
    unfold cascLoop at h
    by_cases hstop : stopLevel fs home comps (m + 1) = true
    · rw [if_pos hstop] at h
      obtain ⟨hp, hsk⟩ := cascLevel_mem fs comps (m + 1) p h
      exact ⟨m + 1, Nat.le_refl _, hp, hsk, fun j hj1 hj2 => absurd hj1 (by omega)⟩
    · have hstop2 : stopLevel fs home comps (m + 1) = false := by
        simpa using hstop
      rw [if_neg hstop] at h
      simp only [List.mem_append] at h
      rcases h with h1 | h1
      · obtain ⟨hp, hsk⟩ := cascLevel_mem fs comps (m + 1) p h1
        exact ⟨m + 1, Nat.le_refl _, hp, hsk, fun j hj1 hj2 => absurd hj1 (by omega)⟩
      · obtain ⟨m2, hm1, hm2, hm3, hm4⟩ := ih p h1
        refine ⟨m2, by omega, hm2, hm3, fun j hj1 hj2 => ?_⟩
        by_cases hj : j ≤ m
        · exact hm4 j hj1 hj
        · have : j = m + 1 := by omega
          rw [this]
          exact hstop2

/-- One level contributes nothing or exactly its own directory. -/
theorem cascLevel_cases (fs : GoFS) (comps : List String) (n : Nat) :
    (cascLevel fs comps n).1 = [] ∨
    (cascLevel fs comps n).1 = [comps.take (n + 1)] := by
  simp only [cascLevel]
  split
  next => left; rfl
  next es hr =>
    split
    next hs =>
      split
      next => right; rfl
      next => left; rfl
    next => left; rfl

/-- Files accumulate deepest first in the upward loop: depths strictly
decrease along the collected list. -/
theorem cascLoop_sorted (fs : GoFS) (home : Option (List String)) (comps : List String) :
    ∀ n, n + 1 ≤ comps.length →
      List.Pairwise (fun a b : List String => b.length < a.length)
        (cascLoop fs home comps n).1 := by
  intro n
  induction n with
  | zero =>
    intro _
    rcases cascLevel_cases fs comps 0 with h | h <;>
      rw [show cascLoop fs home comps 0 = cascLevel fs comps 0 from rfl, h] <;> simp
  | succ m ih =>
    intro hlen
    unfold cascLoop
    by_cases hstop : stopLevel fs home comps (m + 1) = true
    · rw [if_pos hstop]
      rcases cascLevel_cases fs comps (m + 1) with h | h <;> rw [h] <;> simp
    · rw [if_neg hstop]
      simp only [List.pairwise_append]
      refine ⟨?_, ih (by omega), ?_⟩
      · rcases cascLevel_cases fs comps (m + 1) with h | h <;> rw [h] <;> simp
      · intro a ha b hb
        rcases cascLevel_cases fs comps (m + 1) with h | h
        · rw [h] at ha; simp at ha
        · rw [h] at ha
          simp at ha
          obtain ⟨m2, hm1, hm2, _, _⟩ := cascLoop_mem fs home comps m b hb
          rw [ha, hm2, List.length_take, List.length_take]
          omega

/-- C1: building at sub in the example tree collects exactly the proj and
sub option files in root-first order, stopping inclusively at the .git
boundary; in general every collected file lies at or below every stop
boundary (home directory or .git) among the walked depths, and the
collected list is ordered strictly root-most first. -/
theorem cascadingOptionFiles_spec :
    (cascadingOptionFiles exampleFS (some ["home", "user"])
        ["home", "user", "proj", "sub"] =
      ([["home", "user", "proj"], ["home", "user", "proj", "sub"]], false)) ∧
    (∀ (fs : GoFS) (home : Option (List String)) (comps : List String),
      comps ≠ [] →
      (∀ p ∈ (cascadingOptionFiles fs home comps).1, ∀ j, j < comps.length →
        stopLevel fs home comps j = true →
        ∃ m, j ≤ m ∧ m < comps.length ∧ p = comps.take (m + 1)) ∧
      List.Pairwise (fun a b : List String => a.length < b.length)
        (cascadingOptionFiles fs home comps).1) := by
  constructor
  · decide
  · intro fs home comps hne
    cases comps with
    | nil => exact absurd rfl hne
    | cons c cs =>
      constructor
      · intro p hp j hj hstop
        unfold cascadingOptionFiles at hp
        simp only [List.mem_reverse] at hp
        obtain ⟨m, hm1, hm2, _, hm4⟩ :=
          cascLoop_mem fs home (c :: cs) ((c :: cs).length - 1) p hp
        refine ⟨m, ?_, ?_, hm2⟩
        · by_cases hjm : j ≤ m
          · exact hjm
          · have hj2 : m < j := by omega
            have hj3 : j ≤ (c :: cs).length - 1 := by
              simp only [List.length_cons] at hj ⊢
              omega
            exact absurd hstop (by rw [hm4 j hj2 hj3]; decide)
        · have : m ≤ (c :: cs).length - 1 := hm1
          simp only [List.length_cons] at this ⊢
          omega
      · unfold cascadingOptionFiles
        rw [List.pairwise_reverse]
        exact cascLoop_sorted fs home (c :: cs) ((c :: cs).length - 1)
          (by simp)

/-- Witness for C1: in the example tree the collected file at proj lies at
or below the .git stop boundary at depth index 2, inclusively. -/
theorem cascadingOptionFiles_spec_witness :
    ∃ m, 2 ≤ m ∧ m < 4 ∧
      (["home", "user", "proj"] : List String) =
        (["home", "user", "proj", "sub"] : List String).take (m + 1) :=
  (cascadingOptionFiles_spec.2 exampleFS (some ["home", "user"])
    ["home", "user", "proj", "sub"] (by decide)).1
    ["home", "user", "proj"] (by decide) 2 (by decide) (by decide)

/-! Claim theorems for the target resolver. -/

/-- Emissions of sibling subtrees concatenate around a failing leaf: the
failing directory contributes exactly one Target carrying its error, and
the emissions of the siblings before and after it are unchanged. -/
theorem generateTargetsForSubdirs_append (a b : List SpecDir) (msg : String) :
    generateTargetsForSubdirs (a ++ SpecDir.mk (DirOutcome.failed msg) [] :: b) =
      generateTargetsForSubdirs a ++
        { err := some msg } :: generateTargetsForSubdirs b := by
  induction a with
  | nil =>
    simp only [List.nil_append, generateTargetsForSubdirs, generateTargetsForDir,
      targetsHere]
    rfl
  | cons d ds ih =>
    simp only [List.cons_append, generateTargetsForSubdirs, List.append_eq, ih,
      List.append_assoc]

/-- C6: a three-leaf subtree with one failing leaf yields exactly three
Targets of which exactly one carries a non-nil error and two carry none,
whichever leaf fails; and in general a failing leaf contributes its single
error Target without changing what its siblings contribute. -/
theorem generateTargetsForDir_spec :
    (∀ i : Fin 3,
      (generateTargetsForDir (threeLeafTree i.val)).length = 3 ∧
      ((generateTargetsForDir (threeLeafTree i.val)).filter
        (fun t => t.err.isSome)).length = 1 ∧
      ((generateTargetsForDir (threeLeafTree i.val)).filter
        (fun t => t.err.isNone)).length = 2) ∧
    (∀ (a b : List SpecDir) (msg : String),
      generateTargetsForSubdirs (a ++ SpecDir.mk (DirOutcome.failed msg) [] :: b) =
        generateTargetsForSubdirs a ++
          { err := some msg } :: generateTargetsForSubdirs b) := by
  constructor
  · intro i
    fin_cases i <;> exact ⟨by decide, by decide, by decide⟩
  · exact generateTargetsForSubdirs_append

/-- Witness for C6: the concrete three-leaf subtrees with the failing leaf
in each position each yield three Targets with exactly one error, and a
failing leaf between two healthy sibling lists leaves their emissions
intact. -/
theorem generateTargetsForDir_spec_witness :
    (generateTargetsForDir (threeLeafTree 0)).length = 3 ∧
    (generateTargetsForDir (threeLeafTree 2)).length = 3 ∧
    generateTargetsForSubdirs
        ([SpecDir.mk DirOutcome.resolved []] ++
          SpecDir.mk (DirOutcome.failed "bad") [] ::
          [SpecDir.mk DirOutcome.resolved []]) =
      generateTargetsForSubdirs [SpecDir.mk DirOutcome.resolved []] ++
        { err := some "bad" } ::
        generateTargetsForSubdirs [SpecDir.mk DirOutcome.resolved []] :=
  ⟨(generateTargetsForDir_spec.1 ⟨0, by decide⟩).1,
   (generateTargetsForDir_spec.1 ⟨2, by decide⟩).1,
   generateTargetsForDir_spec.2 [SpecDir.mk DirOutcome.resolved []]
     [SpecDir.mk DirOutcome.resolved []] "bad"⟩
